import Mathlib

/-!
# Relevance Engine of the EUC Content Hub chat assistant

A shallow embedding of the relevance-scoring and fallback-search engine of
`src/chat_lambda.py`: keyword extraction, domain detection, per-post scoring,
ranking, the fallback keyword search and the recommendation orchestrator
(`get_ai_recommendations`), together with the JSON-in-prose extraction used to
parse the generative model output (`extract_json_from_text`).

Modelling conventions:
* Python strings are embedded as `String` / `List Char`; `str.lower()` is
  `Char.toLower` mapped over the characters (the corpus and queries are ASCII).
* `a in b` on Python strings is substring containment, embedded as `isSubstr`.
* `re.findall(r'\b\w+\b', s)` returns the maximal runs of word characters
  (`[A-Za-z0-9_]` for the ASCII texts at hand), embedded as `tokenize`.
* Scores are `Nat`: every scoring rule adds a positive amount.
* `datetime.now()` (the evaluation instant) is an explicit parameter `now`,
  measured in seconds on the proleptic Gregorian day count used by `rataDie`.
* The Bedrock call of `get_ai_recommendations` is an explicit parameter of
  type `Except Unit String`: `.error` is a raised exception (model-call
  failure or timeout), `.ok text` is the returned model text.
* `json.loads` is embedded as a recursive-descent JSON parser `parseJsonAll`
  (objects, arrays, strings with escapes, numbers kept as lexemes, the three
  literals); the `NaN`/`Infinity` extensions are not modelled.
-/

namespace EucChat

/-- Lowercase a Python string: `s.lower()`, as a list of characters. -/
def lower (s : String) : List Char := s.data.map Char.toLower

/-- Python substring containment `needle in hay`. -/
def isSubstr (needle : List Char) : List Char → Bool
  | [] => needle.isEmpty
  | c :: t => needle.isPrefixOf (c :: t) || isSubstr needle t

/-- A word character of `re.findall(r'\b\w+\b', ...)` on the ASCII texts at
hand: a letter, a digit or an underscore. -/
def isWordChar (c : Char) : Bool := c.isAlphanum || c == '_'

/-- One pass over the text accumulating the current (reversed) run of word
characters; a finished run is emitted when a non-word character or the end
of the text is reached. -/
def tokenizeAux : List Char → List Char → List (List Char)
  | [], acc => if acc.isEmpty then [] else [acc.reverse]
  | c :: cs, acc =>
    if isWordChar c then tokenizeAux cs (c :: acc)
    else if acc.isEmpty then tokenizeAux cs []
    else acc.reverse :: tokenizeAux cs []

/-- The maximal runs of word characters of a text: the token list
`re.findall(r'\b\w+\b', text)` produces. -/
def tokenize (s : List Char) : List (List Char) := tokenizeAux s []

/-- The stop-word set of `filter_and_score_posts` and `fallback_search`
(`src/chat_lambda.py` lines 165-167 and 448-450): identical in both. -/
def stopWords : List (List Char) :=
  ["the", "a", "an", "and", "or", "but", "in", "on", "at", "to", "for",
   "of", "with", "by", "from", "about", "how", "what", "when", "where",
   "why", "which", "who", "i", "want", "need", "help", "me", "my"].map String.data

/-- The keyword-keeping test: `w not in stop_words and len(w) > 2`. -/
def keep (w : List Char) : Bool := !stopWords.contains w && decide (2 < w.length)

/-- The Keyword Extractor: tokens of the lowercased query that survive `keep`
(`src/chat_lambda.py` line 169). -/
def extractKeywords (qLower : List Char) : List (List Char) :=
  (tokenize qLower).filter keep

/-- The static EUC domain taxonomy `EUC_DOMAINS` (`src/chat_lambda.py` lines
25-35), in its source order (a Python 3.7+ dict iterates in insertion order). -/
def EUC_DOMAINS : List (String × List String) :=
  [("workspaces", ["workspaces", "workspace", "virtual desktop", "vdi", "daas"]),
   ("appstream", ["appstream", "app stream", "application streaming"]),
   ("workspaces_web", ["workspaces web", "workspace web", "web access"]),
   ("workspaces_thin_client", ["thin client", "thinclient", "zero client"]),
   ("dcv", ["dcv", "nice dcv", "streaming protocol"]),
   ("workdocs", ["workdocs", "work docs", "document collaboration"]),
   ("chime", ["chime", "video conferencing"]),
   ("connect", ["connect", "contact center"]),
   ("end_user_computing",
    ["euc", "end user computing", "end-user computing", "remote work", "hybrid work"])]

/-- The loop of `detect_domain` over an explicit taxonomy list. -/
def detectDomainFrom : List (String × List String) → List Char → Option String
  | [], _ => none
  | (d, kws) :: rest, q =>
    if kws.any (fun k => isSubstr k.data q) then some d else detectDomainFrom rest q

/-- The Domain Detector `detect_domain` (`src/chat_lambda.py` lines 240-253):
first taxonomy entry with a keyword occurring in the lowercase query. -/
def detect_domain (query : List Char) : Option String :=
  detectDomainFrom EUC_DOMAINS query

/-- A blog post record as the engine reads it: the text fields default to the
empty string exactly as `post.get(field, '') or ''` does; `label` keeps its
absent-key case (`post.get('label', 'Unknown')`) as `none`. -/
structure Post where
  post_id : String := ""
  title : String := ""
  summary : String := ""
  tags : String := ""
  content : String := ""
  authors : String := ""
  url : String := ""
  date_published : String := ""
  label : Option String := none
deriving Repr, DecidableEq, Inhabited

/-! ## Recency (`is_recent_post`, `src/chat_lambda.py` lines 256-271) -/

/-- A calendar date as `datetime.fromisoformat` validates it. -/
structure Date where
  year : Nat
  month : Nat
  day : Nat
deriving Repr, DecidableEq

/-- Gregorian leap year. -/
def isLeap (y : Nat) : Bool := y % 4 == 0 && (y % 100 != 0 || y % 400 == 0)

/-- Days in a month of a (non-)leap year; 0 for an out-of-range month. -/
def monthLength (leap : Bool) : Nat → Nat
  | 1 => 31
  | 2 => if leap then 29 else 28
  | 3 => 31
  | 4 => 30
  | 5 => 31
  | 6 => 30
  | 7 => 31
  | 8 => 31
  | 9 => 30
  | 10 => 31
  | 11 => 30
  | 12 => 31
  | _ => 0

/-- Day of year (1-based) of a valid date. -/
def dayOfYear (dt : Date) : Nat :=
  ((List.range (dt.month - 1)).map (fun i => monthLength (isLeap dt.year) (i + 1))).sum + dt.day

/-- Proleptic Gregorian day number (0001-01-01 is day 1), the usual rata die. -/
def rataDie (dt : Date) : Nat :=
  365 * (dt.year - 1) + (dt.year - 1) / 4 + (dt.year - 1) / 400 + dayOfYear dt
    - (dt.year - 1) / 100

/-- Midnight of a date, in seconds on the rata-die scale: the value
`datetime.fromisoformat` compares against `datetime.now()`. -/
def dateSeconds (dt : Date) : Int := (rataDie dt : Int) * 86400

/-- Value of an ASCII digit. -/
def digitVal (c : Char) : Option Nat :=
  if c.isDigit then some (c.toNat - 48) else none

/-- The date parser `datetime.fromisoformat` applied to a date-only string:
exactly `YYYY-MM-DD` with a valid year (1-9999), month and day; anything else
raises, embedded as `none`. -/
def parseIsoDate : List Char → Option Date
  | [y1, y2, y3, y4, '-', m1, m2, '-', d1, d2] => do
    let a ← digitVal y1
    let b ← digitVal y2
    let c ← digitVal y3
    let d ← digitVal y4
    let e ← digitVal m1
    let f ← digitVal m2
    let g ← digitVal d1
    let h ← digitVal d2
    let y := 1000 * a + 100 * b + 10 * c + d
    let m := 10 * e + f
    let dd := 10 * g + h
    if 1 ≤ y ∧ 1 ≤ m ∧ m ≤ 12 ∧ 1 ≤ dd ∧ dd ≤ monthLength (isLeap y) m then
      some ⟨y, m, dd⟩
    else
      none
  | _ => none

/-- The date portion of `date_published`: `date_str.split('T')[0]`. -/
def datePortion (s : String) : List Char := s.data.takeWhile (fun c => c ≠ 'T')

/-- The recency check `is_recent_post(date_str)` at evaluation instant
`now` (seconds): true when the parsed date is at or after `now` minus 180
days; every failure of parsing is caught and counts as not recent. -/
def is_recent_post (dateStr : String) (now : Int) : Bool :=
  if dateStr = "" then false
  else
    match parseIsoDate (datePortion dateStr) with
    | none => false
    | some dt => decide (now - 180 * 86400 ≤ dateSeconds dt)

/-! ## Post Scorer (`filter_and_score_posts`, `src/chat_lambda.py` 141-237) -/

/-- Per-keyword field weights of `filter_and_score_posts` (lines 192-207):
+5 title, +3 summary, +4 tags, +1 content (first 1000 chars). -/
def keywordFieldScore (title summary tags content kw : List Char) : Nat :=
  (if isSubstr kw title then 5 else 0) + (if isSubstr kw summary then 3 else 0)
    + (if isSubstr kw tags then 4 else 0) + (if isSubstr kw content then 1 else 0)

/-- The keyword loop of `filter_and_score_posts`: one field-weight bundle per
occurrence in the keyword list. -/
def keywordScore (title summary tags content : List Char) (kws : List (List Char)) : Nat :=
  (kws.map (keywordFieldScore title summary tags content)).sum

/-- Per-domain-keyword boost of `filter_and_score_posts` (lines 209-218):
+8 in title, else +6 in summary, else +7 in tags. -/
def domainFieldScore (title summary tags : List Char) (dk : String) : Nat :=
  if isSubstr dk.data title then 8
  else if isSubstr dk.data summary then 6
  else if isSubstr dk.data tags then 7
  else 0

/-- The domain-boost loop of `filter_and_score_posts`: sum of the boosts of
the detected domain keywords (`EUC_DOMAINS.get(detected_domain, [])`). -/
def domainScore (title summary tags : List Char) : Option String → Nat
  | none => 0
  | some d => (((EUC_DOMAINS.lookup d).getD []).map (domainFieldScore title summary tags)).sum

/-- The score of one post, all signals except recency: exact-phrase +10,
per-keyword field weights, domain boosts. -/
def postScoreCore (qLower : List Char) (kws : List (List Char)) (dom : Option String)
    (p : Post) : Nat :=
  let title := lower p.title
  let summary := lower p.summary
  let tags := lower p.tags
  let content := (lower p.content).take 1000
  (if isSubstr qLower title then 10 else 0)
    + keywordScore title summary tags content kws
    + domainScore title summary tags dom

/-- The full per-post score of `filter_and_score_posts` (lines 179-223),
recency bonus included. -/
def postScore (qLower : List Char) (kws : List (List Char)) (dom : Option String)
    (now : Int) (p : Post) : Nat :=
  postScoreCore qLower kws dom p + (if is_recent_post p.date_published now then 2 else 0)

/-- The scoring loop of `filter_and_score_posts`: `(score, post)` pairs of the
posts scoring above zero, in corpus order. -/
def scorePosts (q : String) (posts : List Post) (now : Int) : List (Nat × Post) :=
  let qL := lower q
  let kws := extractKeywords qL
  let dom := detect_domain qL
  posts.filterMap fun p =>
    let s := postScore qL kws dom now p
    if 0 < s then some (s, p) else none

/-- One step of the stable descending-by-score sort: the new pair goes in
front of the first existing pair of less-or-equal score, so a pair arriving
earlier stays before every equal-scored pair arriving later. -/
def insTop (x : Nat × Post) : List (Nat × Post) → List (Nat × Post)
  | [] => [x]
  | y :: ys => if y.1 ≤ x.1 then x :: y :: ys else y :: insTop x ys

/-- The sort `scored_posts.sort(reverse=True, key=lambda x: x[0])`: Python sorts
stable, and `reverse=True` keeps equal elements in their original order, so
it computes exactly the stable descending insertion sort. -/
def sortByScoreDesc : List (Nat × Post) → List (Nat × Post)
  | [] => []
  | x :: xs => insTop x (sortByScoreDesc xs)

/-- The Ranker `filter_and_score_posts` (lines 141-237): positive scores only,
stable descending sort, top 50 posts. -/
def filter_and_score_posts (q : String) (posts : List Post) (now : Int) : List Post :=
  ((sortByScoreDesc (scorePosts q posts now)).take 50).map Prod.snd

/-! ## Fallback scorer (`fallback_search`, `src/chat_lambda.py` 431-508) -/

/-- Per-keyword field weights of `fallback_search` (lines 466-472): +5 title,
+3 summary, +4 tags — no content signal. -/
def fbKeywordFieldScore (title summary tags kw : List Char) : Nat :=
  (if isSubstr kw title then 5 else 0) + (if isSubstr kw summary then 3 else 0)
    + (if isSubstr kw tags then 4 else 0)

/-- The keyword loop of `fallback_search`. -/
def fbKeywordScore (title summary tags : List Char) (kws : List (List Char)) : Nat :=
  (kws.map (fbKeywordFieldScore title summary tags)).sum

/-- Per-domain-keyword boost of `fallback_search` (lines 475-481): +8 in
title, else +6 in summary — no tags branch. -/
def fbDomainFieldScore (title summary : List Char) (dk : String) : Nat :=
  if isSubstr dk.data title then 8
  else if isSubstr dk.data summary then 6
  else 0

/-- The domain-boost loop of `fallback_search`. -/
def fbDomainScore (title summary : List Char) : Option String → Nat
  | none => 0
  | some d => (((EUC_DOMAINS.lookup d).getD []).map (fbDomainFieldScore title summary)).sum

/-- The per-post score of `fallback_search` (lines 455-481): exact-phrase +10,
keyword weights, domain boosts — no recency bonus. -/
def fbPostScore (qLower : List Char) (kws : List (List Char)) (dom : Option String)
    (p : Post) : Nat :=
  let title := lower p.title
  let summary := lower p.summary
  let tags := lower p.tags
  (if isSubstr qLower title then 10 else 0)
    + fbKeywordScore title summary tags kws
    + fbDomainScore title summary dom

/-- The scoring loop of `fallback_search`: positive-scoring `(score, post)`
pairs in corpus order. -/
def fbScorePosts (q : String) (posts : List Post) : List (Nat × Post) :=
  let qL := lower q
  let kws := extractKeywords qL
  let dom := detect_domain qL
  posts.filterMap fun p =>
    let s := fbPostScore qL kws dom p
    if 0 < s then some (s, p) else none

/-! ## JSON values and the parser standing for `json.loads` -/

/-- A parsed JSON value. Numbers keep their source lexeme: the orchestrator
never computes with a numeric value, it only compares identifiers (strings)
and inspects shapes. -/
inductive Json where
  | null
  | bool (b : Bool)
  | num (lexeme : String)
  | str (s : String)
  | arr (elems : List Json)
  | obj (fields : List (String × Json))
deriving Inhabited

/-- JSON whitespace (what `json.loads` skips between tokens). -/
def isJsonWs (c : Char) : Bool := c == ' ' || c == '\t' || c == '\n' || c == '\r'

/-- Skip JSON whitespace. -/
def skipWs (s : List Char) : List Char := s.dropWhile isJsonWs

/-- Value of an ASCII hex digit. -/
def hexVal (c : Char) : Option Nat :=
  if c.isDigit then some (c.toNat - 48)
  else if 'a' ≤ c ∧ c ≤ 'f' then some (c.toNat - 87)
  else if 'A' ≤ c ∧ c ≤ 'F' then some (c.toNat - 55)
  else none

/-- Parse the remainder of a JSON string literal, the opening quote already
consumed: the decoded characters and the input after the closing quote.
Unescaped control characters are rejected, as `json.loads` (strict mode)
does. -/
def parseStringRest : List Char → Option (List Char × List Char)
  | [] => none
  | '"' :: r => some ([], r)
  | '\\' :: 'u' :: h1 :: h2 :: h3 :: h4 :: r => do
    let a ← hexVal h1
    let b ← hexVal h2
    let c ← hexVal h3
    let d ← hexVal h4
    let (s, r2) ← parseStringRest r
    return (Char.ofNat (4096 * a + 256 * b + 16 * c + d) :: s, r2)
  | '\\' :: e :: r => do
    let c ← match e with
      | '"' => some '"'
      | '\\' => some '\\'
      | '/' => some '/'
      | 'b' => some (Char.ofNat 8)
      | 'f' => some (Char.ofNat 12)
      | 'n' => some '\n'
      | 'r' => some '\r'
      | 't' => some '\t'
      | _ => none
    let (s, r2) ← parseStringRest r
    return (c :: s, r2)
  | c :: r =>
    if c.toNat < 32 then none
    else do
      let (s, r2) ← parseStringRest r
      return (c :: s, r2)

/-- Lex a JSON number starting at `s` (grammar `-?int frac? exp?`): the
lexeme and the rest, or `none` when no valid number starts here. -/
def lexNumber (s : List Char) : Option (List Char × List Char) :=
  let (neg, s1) : List Char × List Char :=
    match s with
    | '-' :: r => (['-'], r)
    | _ => ([], s)
  match s1 with
  | [] => none
  | c :: r =>
    if !c.isDigit then none
    else
      let (intPart, s2) : List Char × List Char :=
        if c = '0' then (['0'], r)
        else (s1.takeWhile Char.isDigit, s1.dropWhile Char.isDigit)
      -- "0" followed by another digit is not a valid JSON number
      if c = '0' && (match s2 with | d :: _ => d.isDigit | [] => false) then none
      else
        let (fracPart, s3) : List Char × List Char :=
          match s2 with
          | '.' :: t =>
            let ds := t.takeWhile Char.isDigit
            if ds.isEmpty then ([], '.' :: t) else ('.' :: ds, t.dropWhile Char.isDigit)
          | _ => ([], s2)
        -- a dot not followed by digits makes the whole number invalid
        if (match s3 with | '.' :: _ => true | _ => false) then none
        else
          let (expPart, s4) : Option (List Char) × List Char :=
            match s3 with
            | 'e' :: t => lexExp 'e' t
            | 'E' :: t => lexExp 'E' t
            | _ => (some [], s3)
          match expPart with
          | none => none
          | some ep => some (neg ++ intPart ++ fracPart ++ ep, s4)
where
  /-- Lex an exponent part after its marker `e`. -/
  lexExp (e : Char) (t : List Char) : Option (List Char) × List Char :=
    let (sign, t1) : List Char × List Char :=
      match t with
      | '+' :: u => (['+'], u)
      | '-' :: u => (['-'], u)
      | _ => ([], t)
    let ds := t1.takeWhile Char.isDigit
    if ds.isEmpty then (none, t)
    else (some (e :: sign ++ ds), t1.dropWhile Char.isDigit)

mutual

/-- Parse one JSON value, whitespace-tolerant, fuel-bounded. -/
def parseVal (fuel : Nat) (s : List Char) : Option (Json × List Char) :=
  match fuel with
  | 0 => none
  | fuel + 1 =>
    match skipWs s with
    | 'n' :: 'u' :: 'l' :: 'l' :: r => some (.null, r)
    | 't' :: 'r' :: 'u' :: 'e' :: r => some (.bool true, r)
    | 'f' :: 'a' :: 'l' :: 's' :: 'e' :: r => some (.bool false, r)
    | '"' :: r => do
      let (cs, r2) ← parseStringRest r
      return (.str (String.mk cs), r2)
    | '[' :: r =>
      (match skipWs r with
       | ']' :: r2 => some (.arr [], r2)
       | r1 => do
         let (vs, r2) ← parseArrElems fuel r1
         return (.arr vs, r2))
    | '\x7b' :: r =>
      (match skipWs r with
       | '\x7d' :: r2 => some (.obj [], r2)
       | r1 => do
         let (fs, r2) ← parseObjFields fuel r1
         return (.obj fs, r2))
    | s1 => do
      let (lx, r) ← lexNumber s1
      return (.num (String.mk lx), r)

/-- Parse the elements of a non-empty JSON array, up to and including `]`. -/
def parseArrElems (fuel : Nat) (s : List Char) : Option (List Json × List Char) :=
  match fuel with
  | 0 => none
  | fuel + 1 => do
    let (v, r) ← parseVal fuel s
    match skipWs r with
    | ',' :: r2 => do
      let (vs, r3) ← parseArrElems fuel r2
      return (v :: vs, r3)
    | ']' :: r2 => return ([v], r2)
    | _ => none

/-- Parse the fields of a non-empty JSON object, up to and including the
closing brace. -/
def parseObjFields (fuel : Nat) (s : List Char) : Option (List (String × Json) × List Char) :=
  match fuel with
  | 0 => none
  | fuel + 1 =>
    match skipWs s with
    | '"' :: r => do
      let (k, r1) ← parseStringRest r
      match skipWs r1 with
      | ':' :: r2 => do
        let (v, r3) ← parseVal fuel r2
        match skipWs r3 with
        | ',' :: r4 => do
          let (fs, r5) ← parseObjFields fuel r4
          return ((String.mk k, v) :: fs, r5)
        | '\x7d' :: r4 => return ([(String.mk k, v)], r4)
        | _ => none
      | _ => none
    | _ => none

end

/-- Parse as `json.loads(text)` does: one JSON value spanning the whole input, surrounding
whitespace allowed. The fuel `2 * length + 2` covers the deepest possible
descent (the parser consumes at least one character every two fuel steps). -/
def parseJsonAll (s : List Char) : Option Json :=
  match parseVal (2 * s.length + 2) s with
  | some (j, rest) => if (skipWs rest).isEmpty then some j else none
  | none => none

/-- The match of `re.search(r'\x7b.*\x7d', text, re.DOTALL)`: the slice from
the first opening brace to the last closing brace after it, when both exist
(the leftmost match of the greedy pattern). -/
def jsonSlice (s : List Char) : Option (List Char) :=
  let t := s.dropWhile (fun c => c ≠ '\x7b')
  let u := t.reverse.dropWhile (fun c => c ≠ '\x7d')
  if t.isEmpty ∨ u.isEmpty then none else some u.reverse

/-- The extraction `extract_json_from_text` (`src/chat_lambda.py` lines 413-428): direct
parse first, then the brace-to-brace slice; `none` when both fail. -/
def extract_json_from_text (text : String) : Option Json :=
  match parseJsonAll text.data with
  | some j => some j
  | none => (jsonSlice text.data).bind parseJsonAll

/-! ## Recommendation Orchestrator (`get_ai_recommendations`, lines 274-410) -/

/-- One entry of the response DTO (`recommendations` items of the handler
output). `relevance_reason` is whatever JSON value the model supplied (the
code passes it through unexamined); the fallback path always builds a
string. -/
structure Recommendation where
  post_id : String
  title : String
  summary : String
  label : String
  url : String
  relevance_reason : Json

/-- The response DTO `RecommendationResult` (without the opaque
`conversation_id` passthrough added by the handler). -/
structure RecommendationResult where
  response : Json
  recommendations : List Recommendation

/-- Lookup in a dict built by `json.loads` from the parsed field list: with a
repeated key the last occurrence wins, as in a Python dict literal fill. -/
def objGet (fields : List (String × Json)) (k : String) : Option Json :=
  ((fields.filter (fun f => f.1 == k)).getLast?).map Prod.snd

/-- One model recommendation as the enrichment loop reads it:
`rec.get('post_id')` (absent key gives `None`, embedded `none`) and
`rec.get('relevance_reason', 'Relevant to your query')`. -/
structure AiRec where
  pid : Option Json
  reason : Json

/-- Read one item of the model's `recommendations` list: the item must be a
dict (`rec.get` on anything else raises, sending the whole call to the
fallback path). -/
def validateRec : Json → Option AiRec
  | .obj fs => some ⟨objGet fs "post_id",
      (objGet fs "relevance_reason").getD (.str "Relevant to your query")⟩
  | _ => none

/-- Read every item of a list of model recommendations; `none` as soon as one
item is not a dict (the Python loop raises there and the partial results are
discarded). -/
def validateRecs : List Json → Option (List AiRec)
  | [] => some []
  | j :: js => do
    let r ← validateRec j
    let rs ← validateRecs js
    return r :: rs

/-- The value of `ai_result.get('recommendations', [])` as a list the Python
loop can slice and iterate: a JSON array gives its items, an absent key was
already defaulted to `[]`, the empty string iterates to nothing, and every
other shape raises at the `[:5]` slice or in the loop (fallback path). -/
def aiRecsItems : Json → Option (List Json)
  | .arr xs => some xs
  | .str "" => some []
  | _ => none

/-- The parse stage of the orchestrator's try-block after the model text
arrived (lines 380-387 and the loop header): extract a JSON value, require a
non-empty dict (`if not ai_result: raise`, and `.get` raises on non-dicts),
read `response` and `recommendations` with their defaults, and validate the
first five recommendation items. `none` is any raise, which the caller turns
into the fallback path. -/
def parseAiText (text : String) : Option (Json × List AiRec) :=
  match extract_json_from_text text with
  | some (.obj fields) =>
    if fields.isEmpty then none
    else
      let resp := (objGet fields "response").getD (.str "Here are some posts that might help!")
      let recsJson := (objGet fields "recommendations").getD (.arr [])
      match aiRecsItems recsJson with
      | some items => (validateRecs (items.take 5)).map (fun recs => (resp, recs))
      | none => none
  | _ => none

/-- The enrichment of one model recommendation (lines 388-399): resolve the
identifier against the corpus with `next((p for p in all_posts if
p.get('post_id') == post_id), None)`; a missing or non-string identifier
matches no post and the entry is dropped. -/
def enrichOne (allPosts : List Post) (r : AiRec) : Option Recommendation :=
  match r.pid with
  | some (.str pid) =>
    match allPosts.find? (fun p => p.post_id == pid) with
    | some p => some { post_id := p.post_id, title := p.title, summary := p.summary,
                       label := p.label.getD "Unknown", url := p.url,
                       relevance_reason := r.reason }
    | none => none
  | _ => none

/-- An ASCII apostrophe (the response texts of `fallback_search` quote the
query between apostrophes). -/
def apos : String := (Char.ofNat 39).toString

/-- The mechanical relevance explanation of `fallback_search` (line 498). -/
def fbReason (q : String) (score : Nat) : String :=
  "Matches your search for \"" ++ q ++ "\" (relevance score: " ++ toString score ++ ")"

/-- The fallback path `fallback_search` (lines 431-508): rescore with the fallback rule set,
keep the positive scores, stable descending sort, top 5, mechanical
explanations, and a response text that depends only on whether anything
matched. -/
def fallback_search (q : String) (posts : List Post) : RecommendationResult :=
  let top := (sortByScoreDesc (fbScorePosts q posts)).take 5
  let recs := top.map fun sp =>
    { post_id := sp.2.post_id, title := sp.2.title, summary := sp.2.summary,
      label := sp.2.label.getD "Unknown", url := sp.2.url,
      relevance_reason := Json.str (fbReason q sp.1) : Recommendation }
  let responseText :=
    if recs.isEmpty then
      "I couldn" ++ apos ++ "t find posts specifically about " ++ apos ++ q ++ apos
        ++ ", but you can browse all posts or try a different search term."
    else
      "I found " ++ toString recs.length ++ " posts related to your query about " ++ q ++ "."
  { response := .str responseText, recommendations := recs }

/-- The orchestrator `get_ai_recommendations` (lines 274-410). The Bedrock invocation is the
explicit argument `ai`: `.error ()` is a model-call failure or timeout,
`.ok text` the returned text. With no relevant posts the model is never
consulted and the fallback runs over the full corpus; with relevant posts,
any failure of the call or of the parse stage falls back over the relevant
posts; a successful parse is enriched against the full corpus. -/
def get_ai_recommendations (q : String) (relevantPosts allPosts : List Post)
    (ai : Except Unit String) : RecommendationResult :=
  if relevantPosts.isEmpty then fallback_search q allPosts
  else
    match ai with
    | .error _ => fallback_search q relevantPosts
    | .ok text =>
      match parseAiText text with
      | none => fallback_search q relevantPosts
      | some (resp, recs) =>
        { response := resp, recommendations := recs.filterMap (enrichOne allPosts) }

/-- The relevance-engine flow of `lambda_handler` (lines 97-105): rank the
corpus, then orchestrate. -/
def orchestrate (q : String) (posts : List Post) (now : Int)
    (ai : Except Unit String) : RecommendationResult :=
  get_ai_recommendations q (filter_and_score_posts q posts now) posts ai

/-! ## Lemmas about the stable descending sort -/

theorem mem_insTop {z x : Nat × Post} {l : List (Nat × Post)} :
    z ∈ insTop x l ↔ z = x ∨ z ∈ l := by
  induction l with
  | nil => simp [insTop]
  | cons y ys ih =>
    unfold insTop
    split
    · simp
    · simp only [List.mem_cons, ih]
      tauto

theorem pairwise_insTop {x : Nat × Post} {l : List (Nat × Post)}
    (h : l.Pairwise (fun a b => b.1 ≤ a.1)) :
    (insTop x l).Pairwise (fun a b => b.1 ≤ a.1) := by
  induction l with
  | nil => simp [insTop]
  | cons y ys ih =>
    rw [List.pairwise_cons] at h
    unfold insTop
    split
    · rename_i hyx
      refine List.Pairwise.cons ?_ (List.Pairwise.cons h.1 h.2)
      intro z hz
      rcases List.mem_cons.mp hz with hz | hz
      · exact hz ▸ hyx
      · exact le_trans (h.1 z hz) hyx
    · rename_i hyx
      refine List.Pairwise.cons ?_ (ih h.2)
      intro z hz
      rcases mem_insTop.mp hz with hz | hz
      · exact hz ▸ le_of_not_le hyx
      · exact h.1 z hz

theorem filter_insTop (s : Nat) (x : Nat × Post) (l : List (Nat × Post)) :
    (insTop x l).filter (fun z => z.1 == s)
      = if x.1 = s then x :: l.filter (fun z => z.1 == s)
        else l.filter (fun z => z.1 == s) := by
  induction l with
  | nil =>
    by_cases hx : x.1 = s <;> simp [insTop, List.filter_cons, beq_iff_eq, hx]
  | cons y ys ih =>
    unfold insTop
    split
    · by_cases hx : x.1 = s <;> simp [List.filter_cons, hx]
    · rename_i hyx
      have hxy : x.1 < y.1 := Nat.lt_of_not_le hyx
      by_cases hx : x.1 = s
      · have hy : ¬ y.1 = s := by omega
        simp [List.filter_cons, hx, hy, ih]
      · by_cases hy : y.1 = s <;> simp [List.filter_cons, hx, hy, ih]

theorem sorted_sortByScoreDesc (l : List (Nat × Post)) :
    (sortByScoreDesc l).Pairwise (fun a b => b.1 ≤ a.1) := by
  induction l with
  | nil => simp [sortByScoreDesc]
  | cons x xs ih => exact pairwise_insTop ih

theorem filter_sortByScoreDesc (s : Nat) (l : List (Nat × Post)) :
    (sortByScoreDesc l).filter (fun z => z.1 == s) = l.filter (fun z => z.1 == s) := by
  induction l with
  | nil => rfl
  | cons x xs ih =>
    unfold sortByScoreDesc
    rw [filter_insTop]
    by_cases hx : x.1 = s <;> simp [List.filter_cons, hx, ih]

theorem mem_sortByScoreDesc {z : Nat × Post} {l : List (Nat × Post)} :
    z ∈ sortByScoreDesc l ↔ z ∈ l := by
  induction l with
  | nil => simp [sortByScoreDesc]
  | cons x xs ih =>
    unfold sortByScoreDesc
    rw [mem_insTop, ih, List.mem_cons]

/-! ## Lemmas about the scoring loops -/

theorem scorePosts_pos {q : String} {posts : List Post} {now : Int}
    {x : Nat × Post} (hx : x ∈ scorePosts q posts now) : 0 < x.1 := by
  simp only [scorePosts, List.mem_filterMap] at hx
  obtain ⟨p, -, hp⟩ := hx
  split at hp
  · cases hp; assumption
  · cases hp

theorem fbScorePosts_pos {q : String} {posts : List Post}
    {x : Nat × Post} (hx : x ∈ fbScorePosts q posts) : 0 < x.1 := by
  simp only [fbScorePosts, List.mem_filterMap] at hx
  obtain ⟨p, -, hp⟩ := hx
  split at hp
  · cases hp; assumption
  · cases hp

/-- Each fallback field-weight bundle drops only the content signal. -/
theorem fbKeywordFieldScore_le (title summary tags content kw : List Char) :
    fbKeywordFieldScore title summary tags kw
      ≤ keywordFieldScore title summary tags content kw :=
  Nat.le_add_right _ _

/-- Each fallback domain boost drops only the tags branch. -/
theorem fbDomainFieldScore_le (title summary tags : List Char) (dk : String) :
    fbDomainFieldScore title summary dk ≤ domainFieldScore title summary tags dk := by
  unfold fbDomainFieldScore domainFieldScore
  split
  · exact le_refl _
  · split
    · exact le_refl _
    · split <;> omega

/-- The whole fallback domain boost never exceeds the full one. -/
theorem fbDomainScore_le (title summary tags : List Char) (dom : Option String) :
    fbDomainScore title summary dom ≤ domainScore title summary tags dom := by
  cases dom with
  | none => exact le_refl _
  | some d =>
    exact List.sum_le_sum fun dk _ => fbDomainFieldScore_le ..

/-- The fallback score of a post never exceeds its full score: the fallback
rule set is the full rule set minus the content, domain-in-tags and recency
signals, and every signal is non-negative. -/
theorem fbPostScore_le (qL : List Char) (kws : List (List Char)) (dom : Option String)
    (now : Int) (p : Post) : fbPostScore qL kws dom p ≤ postScore qL kws dom now p := by
  unfold fbPostScore postScore postScoreCore
  have h1 : fbKeywordScore (lower p.title) (lower p.summary) (lower p.tags) kws
      ≤ keywordScore (lower p.title) (lower p.summary) (lower p.tags)
          ((lower p.content).take 1000) kws :=
    List.sum_le_sum fun kw _ => fbKeywordFieldScore_le ..
  have h2 : fbDomainScore (lower p.title) (lower p.summary) dom
      ≤ domainScore (lower p.title) (lower p.summary) (lower p.tags) dom :=
    fbDomainScore_le ..
  simp only [fbKeywordScore, keywordScore, fbDomainScore, domainScore] at h1 h2 ⊢
  omega

/-! ## Lemmas about the orchestrator's output size -/

theorem fallback_recs_le5 (q : String) (posts : List Post) :
    (fallback_search q posts).recommendations.length ≤ 5 := by
  simp only [fallback_search, List.length_map, List.length_take]
  exact min_le_left _ _

theorem validateRecs_length {js : List Json} {rs : List AiRec}
    (h : validateRecs js = some rs) : rs.length = js.length := by
  induction js generalizing rs with
  | nil => simp [validateRecs] at h; simp [← h]
  | cons j js ih =>
    simp only [validateRecs, Option.bind_eq_bind, Option.bind_eq_some] at h
    obtain ⟨r, -, rs', hrs', hcons⟩ := h
    cases hcons
    simp [ih hrs']

theorem parseAiText_recs_le5 {t : String} {resp : Json} {recs : List AiRec}
    (h : parseAiText t = some (resp, recs)) : recs.length ≤ 5 := by
  unfold parseAiText at h
  split at h
  · rename_i fields heq
    split at h
    · cases h
    · simp only [] at h
      split at h
      · rename_i items hitems
        simp only [Option.map_eq_some'] at h
        obtain ⟨rs, hrs, hpair⟩ := h
        cases hpair
        calc recs.length = (items.take 5).length := validateRecs_length hrs
          _ ≤ 5 := by simp [List.length_take]
      · cases h
  · cases h

theorem getai_recs_le5 (q : String) (relevantPosts allPosts : List Post)
    (ai : Except Unit String) :
    (get_ai_recommendations q relevantPosts allPosts ai).recommendations.length ≤ 5 := by
  unfold get_ai_recommendations
  split
  · exact fallback_recs_le5 ..
  · match ai with
    | .error _ => exact fallback_recs_le5 ..
    | .ok text =>
      simp only
      split
      · exact fallback_recs_le5 ..
      · rename_i resp recs hparse
        calc (recs.filterMap (enrichOne allPosts)).length
            ≤ recs.length := List.length_filterMap_le ..
          _ ≤ 5 := parseAiText_recs_le5 hparse

/-! ## Claim theorems -/

/-- A corpus post whose only scorable text is the word `vdi` in its content
field. -/
def c1Post : Post := { content := "vdi" }

/-- C1: the spec (and the docstring of `fallback_search` itself) says the
fallback path uses the same scoring function as `filter_and_score_posts`.
It does not: on the query `vdi` and a post whose content contains `vdi`,
the full scorer gives 1 (content keyword match) and ranks the post, while
the fallback scorer — which has no content signal, no domain-in-tags boost
and no recency bonus — gives 0 and returns no recommendation. This theorem
evaluates both paths at that failing input. -/
theorem C1_fallback_scoring_differs_from_ranker :
    postScore (lower "vdi") (extractKeywords (lower "vdi")) (detect_domain (lower "vdi"))
        0 c1Post = 1
    ∧ fbPostScore (lower "vdi") (extractKeywords (lower "vdi")) (detect_domain (lower "vdi"))
        c1Post = 0
    ∧ filter_and_score_posts "vdi" [c1Post] 0 = [c1Post]
    ∧ (fallback_search "vdi" [c1Post]).recommendations = [] := by
  refine ⟨by decide, by decide, by decide, rfl⟩

/-- C2: whatever the generative call does, the orchestrator returns a
well-formed result with at most 5 recommendations; and when the call raises
(`.error`) or its text does not survive the parse stage, the result is
exactly the fallback search — over the full corpus when no relevant posts
were ranked, over the relevant posts otherwise. No exception propagates:
`get_ai_recommendations` is a total function. -/
theorem C2_orchestrator_survives_ai_failure (q : String)
    (relevantPosts allPosts : List Post) (ai : Except Unit String) :
    (get_ai_recommendations q relevantPosts allPosts ai).recommendations.length ≤ 5
    ∧ ((ai = .error () ∨ ∃ t, ai = .ok t ∧ parseAiText t = none) →
        get_ai_recommendations q relevantPosts allPosts ai
          = fallback_search q (if relevantPosts.isEmpty then allPosts else relevantPosts)) := by
  refine ⟨getai_recs_le5 .., ?_⟩
  rintro (rfl | ⟨t, rfl, hparse⟩)
  · by_cases hrel : relevantPosts.isEmpty <;> simp [get_ai_recommendations, hrel]
  · by_cases hrel : relevantPosts.isEmpty <;> simp [get_ai_recommendations, hrel, hparse]

/-- C3: on both paths the ranked list is sorted by non-increasing score;
equal-score pairs keep the order of the positively-scoring sublist of the
corpus (which `scorePosts` / `fbScorePosts` build in corpus order), stated
as: filtering the sorted list at any fixed score gives exactly the scoring
loop's output filtered at that score; only positive scores appear; and the
output is cut to 50 posts on the enrichment path and 5 recommendations on
the fallback path. -/
theorem C3_ranker_sorted_stable_positive_truncated (q : String) (posts : List Post)
    (now : Int) :
    (sortByScoreDesc (scorePosts q posts now)).Pairwise (fun a b => b.1 ≤ a.1)
    ∧ (∀ s : Nat, (sortByScoreDesc (scorePosts q posts now)).filter (fun z => z.1 == s)
        = (scorePosts q posts now).filter (fun z => z.1 == s))
    ∧ (∀ x ∈ sortByScoreDesc (scorePosts q posts now), 0 < x.1)
    ∧ filter_and_score_posts q posts now
        = ((sortByScoreDesc (scorePosts q posts now)).take 50).map Prod.snd
    ∧ (filter_and_score_posts q posts now).length ≤ 50
    ∧ (sortByScoreDesc (fbScorePosts q posts)).Pairwise (fun a b => b.1 ≤ a.1)
    ∧ (∀ s : Nat, (sortByScoreDesc (fbScorePosts q posts)).filter (fun z => z.1 == s)
        = (fbScorePosts q posts).filter (fun z => z.1 == s))
    ∧ (∀ x ∈ sortByScoreDesc (fbScorePosts q posts), 0 < x.1)
    ∧ (fallback_search q posts).recommendations.length ≤ 5 := by
  refine ⟨sorted_sortByScoreDesc _, fun s => filter_sortByScoreDesc s _,
    fun x hx => scorePosts_pos (mem_sortByScoreDesc.mp hx), rfl, ?_,
    sorted_sortByScoreDesc _, fun s => filter_sortByScoreDesc s _,
    fun x hx => fbScorePosts_pos (mem_sortByScoreDesc.mp hx), fallback_recs_le5 ..⟩
  simp only [filter_and_score_posts, List.length_map, List.length_take]
  exact min_le_left _ _

/-- C4: Scenario A. Any post titled `Getting Started with AppStream` with
tags `AppStream, Tutorial` scores at least 17 against the query
`how do I set up AppStream`, recency excluded: +5 for the keyword
`appstream` in the title, +4 for it in the tags, +8 for the detected
domain's keyword `appstream` in the title; the remaining signals only add. -/
theorem C4_scenarioA_scores_at_least_17 (p : Post)
    (ht : p.title = "Getting Started with AppStream")
    (hg : p.tags = "AppStream, Tutorial") :
    17 ≤ postScoreCore (lower "how do I set up AppStream")
        (extractKeywords (lower "how do I set up AppStream"))
        (detect_domain (lower "how do I set up AppStream")) p := by
  have hkw : extractKeywords (lower "how do I set up AppStream")
      = [['s', 'e', 't'], ['a', 'p', 'p', 's', 't', 'r', 'e', 'a', 'm']] := by decide
  have hdom : detect_domain (lower "how do I set up AppStream") = some "appstream" := by
    decide
  unfold postScoreCore
  rw [hkw, hdom, ht, hg]
  have h5 : isSubstr ['a', 'p', 'p', 's', 't', 'r', 'e', 'a', 'm']
      (lower "Getting Started with AppStream") = true := by decide
  have h4 : isSubstr ['a', 'p', 'p', 's', 't', 'r', 'e', 'a', 'm']
      (lower "AppStream, Tutorial") = true := by decide
  have hd : isSubstr (String.data "appstream") (lower "Getting Started with AppStream")
      = true := by decide
  have hb : 9 ≤ keywordFieldScore (lower "Getting Started with AppStream")
      (lower p.summary) (lower "AppStream, Tutorial") ((lower p.content).take 1000)
      ['a', 'p', 'p', 's', 't', 'r', 'e', 'a', 'm'] := by
    unfold keywordFieldScore
    rw [h5, h4]
    simp only [if_true]
    omega
  have hdok : 8 ≤ domainScore (lower "Getting Started with AppStream") (lower p.summary)
      (lower "AppStream, Tutorial") (some "appstream") := by
    unfold domainScore
    dsimp only
    have hlk : (EUC_DOMAINS.lookup "appstream").getD []
        = ["appstream", "app stream", "application streaming"] := by decide
    rw [hlk]
    simp only [List.map_cons, List.sum_cons]
    unfold domainFieldScore
    rw [hd]
    simp only [if_true]
    omega
  simp only [keywordScore, List.map_cons, List.map_nil, List.sum_cons, List.sum_nil]
  omega

/-- C4 witness: the concrete Scenario A post, all other fields empty. -/
theorem C4_scenarioA_witness :
    17 ≤ postScoreCore (lower "how do I set up AppStream")
        (extractKeywords (lower "how do I set up AppStream"))
        (detect_domain (lower "how do I set up AppStream"))
        { title := "Getting Started with AppStream", tags := "AppStream, Tutorial" } :=
  C4_scenarioA_scores_at_least_17
    { title := "Getting Started with AppStream", tags := "AppStream, Tutorial" } rfl rfl

/-- C5: when no post of the corpus scores above zero, the orchestrator's
output is the fallback search's output whatever the generative capability
would have answered (the model is never consulted: the result does not
depend on `ai`), the recommendation list is empty, and the response is a
non-empty explanatory text. -/
theorem C5_empty_ranking_skips_model (q : String) (posts : List Post) (now : Int)
    (ai : Except Unit String)
    (h : ∀ p ∈ posts, postScore (lower q) (extractKeywords (lower q))
        (detect_domain (lower q)) now p = 0) :
    orchestrate q posts now ai = fallback_search q posts
    ∧ (orchestrate q posts now ai).recommendations = []
    ∧ ∃ s, (orchestrate q posts now ai).response = Json.str s ∧ s ≠ "" := by
  have hscore : scorePosts q posts now = [] := by
    simp only [scorePosts, List.filterMap_eq_nil_iff]
    intro p hp
    simp [h p hp]
  have hfb : fbScorePosts q posts = [] := by
    simp only [fbScorePosts, List.filterMap_eq_nil_iff]
    intro p hp
    have h0 : fbPostScore (lower q) (extractKeywords (lower q)) (detect_domain (lower q)) p
        = 0 :=
      Nat.le_zero.mp (h p hp ▸ fbPostScore_le (lower q) (extractKeywords (lower q))
        (detect_domain (lower q)) now p)
    simp [h0]
  have hrank : filter_and_score_posts q posts now = [] := by
    simp [filter_and_score_posts, hscore, sortByScoreDesc]
  have horch : orchestrate q posts now ai = fallback_search q posts := by
    simp [orchestrate, get_ai_recommendations, hrank]
  have hrecs : (fallback_search q posts).recommendations = [] := by
    simp [fallback_search, hfb, sortByScoreDesc]
  have hresp : (fallback_search q posts).response
      = Json.str ("I couldn" ++ apos ++ "t find posts specifically about " ++ apos ++ q
          ++ apos ++ ", but you can browse all posts or try a different search term.") := by
    simp [fallback_search, hfb, sortByScoreDesc]
  refine ⟨horch, horch ▸ hrecs, ?_⟩
  refine ⟨_, horch ▸ hresp, fun hc => ?_⟩
  have hd := congrArg String.data hc
  simp [apos] at hd

/-- C5 witness: the query `hello` against a corpus of one all-empty post,
which scores zero; the generative capability is a raised exception, and the
orchestrator still answers with the no-match text. -/
theorem C5_empty_ranking_witness :
    (∀ p ∈ [({} : Post)], postScore (lower "hello") (extractKeywords (lower "hello"))
        (detect_domain (lower "hello")) 0 p = 0)
    ∧ (orchestrate "hello" [({} : Post)] 0 (.error ()) = fallback_search "hello" [({} : Post)]
       ∧ (orchestrate "hello" [({} : Post)] 0 (.error ())).recommendations = []
       ∧ ∃ s, (orchestrate "hello" [({} : Post)] 0 (.error ())).response = Json.str s
           ∧ s ≠ "") :=
  ⟨by decide, C5_empty_ranking_skips_model "hello" [({} : Post)] 0 (.error ()) (by decide)⟩

/-- The taxonomy loop is the first-match search `List.find?`. -/
theorem detectDomainFrom_eq_findFirst (L : List (String × List String)) (q : List Char) :
    detectDomainFrom L q
      = (L.find? (fun e => e.2.any (fun k => isSubstr k.data q))).map Prod.fst := by
  induction L with
  | nil => rfl
  | cons e rest ih =>
    obtain ⟨d, kws⟩ := e
    unfold detectDomainFrom
    by_cases hm : kws.any (fun k => isSubstr k.data q) = true <;>
      simp [List.find?_cons, hm, ih]

/-- C6: the Domain Detector returns the first taxonomy entry (in the fixed
`EUC_DOMAINS` order) with a keyword occurring as a substring of the query,
even when later entries also match — this is exactly `List.find?` over the
taxonomy — and returns no domain precisely when no keyword of any entry
occurs. Determinism is inherent: `detect_domain` is a pure function of the
query text and the static taxonomy. -/
theorem C6_domain_detector_first_match (q : List Char) :
    detect_domain q
      = (EUC_DOMAINS.find? (fun e => e.2.any (fun k => isSubstr k.data q))).map Prod.fst
    ∧ (detect_domain q = none ↔
        ∀ e ∈ EUC_DOMAINS, ∀ k ∈ e.2, isSubstr k.data q = false) := by
  refine ⟨detectDomainFrom_eq_findFirst .., ?_⟩
  unfold detect_domain
  rw [detectDomainFrom_eq_findFirst]
  simp [List.find?_eq_none]

/-- The generative model text of Scenario D: the structured block is embedded
in prose. -/
def scenarioDText : String :=
  "Here you go: \x7b\"response\":\"ok\",\"recommendations\":[\x7b\"post_id\":\"p1\",\"relevance_reason\":\"x\"\x7d]\x7d"

/-- The corpus post the embedded block names. -/
def p1Post : Post :=
  { post_id := "p1", title := "Post One", summary := "S", tags := "", content := "",
    authors := "", url := "http://x", date_published := "", label := some "Curation" }

/-- The enriched recommendation the orchestrator must produce on Scenario D. -/
def scenarioDRec : Recommendation :=
  { post_id := "p1"
    title := "Post One"
    summary := "S"
    label := "Curation"
    url := "http://x"
    relevance_reason := .str "x" }

/-- C7: on the Scenario D model output the direct parse of the whole text
fails (it is prose), yet the orchestrator extracts the embedded structured
block, uses its response text and its recommendation (enriched from the
corpus), and does not take the fallback path. -/
theorem C7_embedded_json_is_used :
    parseJsonAll scenarioDText.data = none
    ∧ get_ai_recommendations "q" [p1Post] [p1Post] (.ok scenarioDText)
        = { response := .str "ok", recommendations := [scenarioDRec] }
    ∧ get_ai_recommendations "q" [p1Post] [p1Post] (.ok scenarioDText)
        ≠ fallback_search "q" [p1Post] := by
  refine ⟨rfl, rfl, fun h => ?_⟩
  exact Nat.one_ne_zero (congrArg (fun r => r.recommendations.length) h)

/-- C8: the recency check is a total function whose failure mode is `false`:
an unparsable (missing, empty, malformed) date gives no bonus; a date whose
date portion parses within 180 days of the evaluation instant makes the
post recent, which adds exactly +2 to — and nothing else of — the full
score. -/
theorem C8_recency_total_and_bonus (ds : String) (now : Int) (qL : List Char)
    (kws : List (List Char)) (dom : Option String) (p : Post) :
    (parseIsoDate (datePortion ds) = none → is_recent_post ds now = false)
    ∧ (∀ dt, parseIsoDate (datePortion ds) = some dt →
        (now - dateSeconds dt).natAbs ≤ 180 * 86400 → is_recent_post ds now = true)
    ∧ (is_recent_post p.date_published now = true →
        postScore qL kws dom now p = postScoreCore qL kws dom p + 2)
    ∧ (is_recent_post p.date_published now = false →
        postScore qL kws dom now p = postScoreCore qL kws dom p) := by
  refine ⟨fun hnone => ?_, fun dt hdt hnear => ?_, fun hrec => ?_, fun hrec => ?_⟩
  · unfold is_recent_post
    split
    · rfl
    · rw [hnone]
  · unfold is_recent_post
    split
    · rename_i hds
      rw [hds] at hdt
      exact Option.noConfusion hdt
    · rw [hdt]
      simp only [decide_eq_true_eq]
      omega
  · simp [postScore, hrec]
  · simp [postScore, hrec]

/-- C8 witness: a date 175 days before the evaluation instant is recent, a
malformed date is not. -/
theorem C8_recency_witness :
    is_recent_post "2026-04-20" (dateSeconds ⟨2026, 10, 12⟩) = true
    ∧ is_recent_post "garbage" (dateSeconds ⟨2026, 10, 12⟩) = false :=
  ⟨(C8_recency_total_and_bonus "2026-04-20" (dateSeconds ⟨2026, 10, 12⟩) [] [] none
      {}).2.1 ⟨2026, 4, 20⟩ (by decide) (by decide),
   (C8_recency_total_and_bonus "garbage" (dateSeconds ⟨2026, 10, 12⟩) [] [] none
      {}).1 (by decide)⟩

/-- C9: the generative-path output is always capped at 5 entries (whatever
the model returned — all paths of the orchestrator obey the cap); every
enriched recommendation resolves to a post of the corpus; and a
recommendation whose identifier matches no corpus post enriches to nothing
— it is silently dropped, no error value exists. -/
theorem C9_dangling_ids_dropped_capped (q : String) (relevantPosts allPosts : List Post)
    (ai : Except Unit String) (recs : List AiRec) (r : AiRec) :
    (get_ai_recommendations q relevantPosts allPosts ai).recommendations.length ≤ 5
    ∧ (∀ rec ∈ recs.filterMap (enrichOne allPosts), ∃ p ∈ allPosts, rec.post_id = p.post_id)
    ∧ ((∀ p ∈ allPosts, some (Json.str p.post_id) ≠ r.pid) → enrichOne allPosts r = none) := by
  refine ⟨getai_recs_le5 .., fun rec hrec => ?_, fun hnone => ?_⟩
  · rw [List.mem_filterMap] at hrec
    obtain ⟨a, -, ha⟩ := hrec
    unfold enrichOne at ha
    split at ha
    · rename_i pid
      split at ha
      · rename_i p hfind
        cases ha
        refine ⟨p, List.mem_of_find?_eq_some hfind, rfl⟩
      · cases ha
    · cases ha
  · unfold enrichOne
    split
    · rename_i pid hpid
      have hfind : allPosts.find? (fun p => p.post_id == pid) = none := by
        rw [List.find?_eq_none]
        intro p hp
        have := hnone p hp
        rw [hpid] at this
        simp only [ne_eq, Option.some.injEq] at this
        simp only [beq_iff_eq]
        intro hc
        exact this (by rw [hc])
      rw [hfind]
    · rfl

/-- C10: the Keyword Extractor keeps duplicate occurrences — the number of
occurrences of a word among the extracted keywords equals its number of
occurrences among the query tokens (or 0 for a dropped word) — and the
keyword component of the score is additive over the keyword list, so `k`
occurrences of a word contribute exactly `k` times that word's field-weight
bundle. -/
theorem C10_keyword_multiplicity (q : String) (w : List Char)
    (title summary tags content : List Char) (kws : List (List Char)) (k : Nat) :
    List.count w (extractKeywords (lower q))
      = (if keep w then List.count w (tokenize (lower q)) else 0)
    ∧ keywordScore title summary tags content (kws ++ List.replicate k w)
        = keywordScore title summary tags content kws
            + k * keywordFieldScore title summary tags content w := by
  constructor
  · unfold extractKeywords
    by_cases hw : keep w = true
    · simp [List.count_filter, hw]
    · rw [if_neg hw, List.count_eq_zero]
      intro hmem
      exact hw (List.of_mem_filter hmem)
  · unfold keywordScore
    rw [List.map_append, List.sum_append, List.map_replicate, List.sum_replicate,
      smul_eq_mul]

end EucChat
